import Mathlib

/- Shallow embedding of the multi-cloud-manager compute layer: the normalized
ComputeInstance model (src/core/models.py) and the two provider adapters,
AWSManager (src/providers/aws_manager.py) and GCPManager
(src/providers/gcp_manager.py). Vendor APIs (EC2, GCE, Service Usage, Cloud
Storage) enter as explicit environment functions; vendor-side semantics the
adapters rely on (EC2 CreateTags upsert, GCE SetLabels full replacement,
storage object/bucket deletion) are modelled as documented state transitions. -/

/-- Normalized compute-resource record (src/core/models.py `ComputeInstance`).
The Python constructor defaults `project` to `None`; callers that omit it
produce `project = none`. -/
structure ComputeInstance where
  instance_id : String
  name : Option String
  provider : String
  region : String
  instance_type : String
  status : String
  project : Option String := none
deriving Repr, DecidableEq

/-- An EC2 tag dictionary: a Key and a Value (boto3 `{'Key': .., 'Value': ..}`). -/
structure AwsTag where
  key : String
  value : String
deriving Repr, DecidableEq

/-- One instance dictionary of an EC2 `describe_instances` reservation.
`tags` is `none` when the `'Tags'` key is absent from the record. -/
structure AwsVmRecord where
  instanceId : String
  tags : Option (List AwsTag)
  instanceType : String
  stateName : String
deriving Repr, DecidableEq

/-- One reservation of an EC2 `describe_instances` response. -/
structure AwsReservation where
  instances : List AwsVmRecord
deriving Repr, DecidableEq

/-- An EC2 `describe_instances` response: a list of reservations. -/
structure AwsDescribeResponse where
  reservations : List AwsReservation
deriving Repr, DecidableEq

/-- The display-name extraction of `AWSManager.list_compute_instances`
(aws_manager.py lines 24-29): `name` starts as `None`; when the record has a
`'Tags'` key the loop takes the value of the first tag whose key is `'Name'`
and breaks. `List.find?` returns exactly that first match. -/
def awsNameTag : Option (List AwsTag) → Option String
  | none => none
  | some tags => (tags.find? (fun t => t.key == "Name")).map AwsTag.value

/-- The `ComputeInstance` built for one EC2 record (aws_manager.py lines
31-38): `provider` is the literal "aws" and `project` is left at its `None`
default. -/
def AWSManager.normalizeInstance (region : String) (inst : AwsVmRecord) : ComputeInstance :=
  { instance_id := inst.instanceId
    name := awsNameTag inst.tags
    provider := "aws"
    region := region
    instance_type := inst.instanceType
    status := inst.stateName }

/-- `AWSManager.list_compute_instances` (aws_manager.py lines 17-39) on the
success path: for each configured region, every instance of every reservation
of that region's `describe_instances` response is normalized and appended.
The vendor call is the environment `describeInstances`. -/
def AWSManager.list_compute_instances (regions : List String)
    (describeInstances : String → AwsDescribeResponse) : List ComputeInstance :=
  regions.flatMap fun region =>
    (describeInstances region).reservations.flatMap fun reservation =>
      reservation.instances.map (AWSManager.normalizeInstance region)

/-- The shared shape of both adapters' fan-out list loops with a fallible
vendor call: scopes are visited in order, each successful scope's records are
appended, and the first vendor error aborts the whole call (no results, no
retry; Python propagates the exception out of the loop). The first component
records which scopes were actually queried, in order. -/
def fanOutList {σ ε ρ : Type} (fetch : σ → Except ε (List ρ)) :
    List σ → List σ × Except ε (List ρ)
  | [] => ([], Except.ok [])
  | s :: ss =>
    match fetch s with
    | Except.error e => ([s], Except.error e)
    | Except.ok rs =>
      match fanOutList fetch ss with
      | (trace, Except.error e) => (s :: trace, Except.error e)
      | (trace, Except.ok more) => (s :: trace, Except.ok (rs ++ more))

/-- `AWSManager.list_compute_instances` with a fallible `describe_instances`
environment: regions are visited in order and the first failing region's
error propagates, aborting the call (aws_manager.py lines 17-39 have no
try/except around the loop). -/
def AWSManager.listInstancesFanOut {ε : Type} (regions : List String)
    (describeInstancesE : String → Except ε AwsDescribeResponse) :
    List String × Except ε (List ComputeInstance) :=
  fanOutList (fun region =>
    (describeInstancesE region).map fun response =>
      response.reservations.flatMap fun reservation =>
        reservation.instances.map (AWSManager.normalizeInstance region)) regions

/-- One image dictionary of an EC2 `describe_images` response. `name` is
`none` when the `'Name'` key is absent. -/
structure AwsImage where
  imageId : String
  name : Option String
  creationDate : String
deriving Repr, DecidableEq

/-- One entry of the simplified list `AWSManager.get_amis` returns. -/
structure AmiEntry where
  imageId : String
  name : String
deriving Repr, DecidableEq

/-- Python string comparison (lexicographic by code point) on char lists:
equal heads recurse, otherwise the result is the head comparison. -/
def charListLe : List Char → List Char → Bool
  | [], _ => true
  | _ :: _, [] => false
  | a :: as, b :: bs => if a = b then charListLe as bs else decide (a < b)

/-- Python `<=` on strings, as `sorted` compares the `CreationDate` keys. -/
def pyStrLe (a b : String) : Bool := charListLe a.data b.data

/-- The descending-creation-date order used by `get_amis`: `creationGe a b`
holds when `a`'s creation date is at least `b`'s. -/
abbrev creationGe (a b : AwsImage) : Prop :=
  pyStrLe b.creationDate a.creationDate = true

theorem charListLe_total : ∀ (a b : List Char), (charListLe a b || charListLe b a) = true
  | [], _ => by simp [charListLe]
  | _ :: _, [] => by simp [charListLe]
  | a :: as, b :: bs => by
    by_cases h : a = b
    · subst h
      simpa [charListLe] using charListLe_total as bs
    · have h2 : ¬ b = a := fun hh => h hh.symm
      rcases lt_trichotomy a b with hlt | heq | hgt
      · simp [charListLe, h, h2, hlt]
      · exact absurd heq h
      · simp [charListLe, h, h2, hgt, not_lt_of_gt hgt, le_of_lt hgt]

theorem charListLe_trans : ∀ (a b c : List Char),
    charListLe a b = true → charListLe b c = true → charListLe a c = true
  | [], _, _, _, _ => by simp [charListLe]
  | _ :: _, [], _, h, _ => by simp [charListLe] at h
  | _ :: _, _ :: _, [], _, h => by simp [charListLe] at h
  | a :: as, b :: bs, c :: cs, h1, h2 => by
    by_cases hab : a = b
    · subst hab
      by_cases hac : a = c
      · subst hac
        simp only [charListLe, if_pos rfl] at h1 h2 ⊢
        exact charListLe_trans as bs cs h1 h2
      · simp only [charListLe, if_pos rfl] at h1
        simp only [charListLe, if_neg hac] at h2 ⊢
        exact h2
    · by_cases hbc : b = c
      · subst hbc
        simp only [charListLe, if_neg hab] at h1 ⊢
        exact h1
      · simp only [charListLe, if_neg hab] at h1
        simp only [charListLe, if_neg hbc] at h2
        by_cases hac : a = c
        · subst hac
          exact absurd (lt_trans (of_decide_eq_true h1) (of_decide_eq_true h2)) (lt_irrefl a)
        · simp only [charListLe, if_neg hac]
          exact decide_eq_true (lt_trans (of_decide_eq_true h1) (of_decide_eq_true h2))

theorem charListLe_refl : ∀ (a : List Char), charListLe a a = true
  | [] => by simp [charListLe]
  | _ :: as => by simpa [charListLe] using charListLe_refl as

instance : IsTotal AwsImage creationGe :=
  ⟨fun a b => by
    have h := charListLe_total b.creationDate.data a.creationDate.data
    rcases Bool.or_eq_true_iff.mp h with h1 | h1
    · exact Or.inl h1
    · exact Or.inr h1⟩

instance : IsTrans AwsImage creationGe :=
  ⟨fun a b c h1 h2 => charListLe_trans c.creationDate.data b.creationDate.data
    a.creationDate.data h2 h1⟩

/-- `AWSManager.get_amis` (aws_manager.py lines 41-60): the response images
are sorted by `CreationDate` descending (Python `sorted` with `reverse=True`
is a stable sort; the stable insertion sort computes the same list) and
projected to `ImageId` and `Name`, with `Name` falling back to the image id
(`img.get('Name', img['ImageId'])`). The filtered vendor response is the
environment `describeImages`. -/
def AWSManager.get_amis (describeImages : String → List AwsImage) (region : String) :
    List AmiEntry :=
  let images := (describeImages region).insertionSort creationGe
  images.map fun img => { imageId := img.imageId, name := img.name.getD img.imageId }

/-- Vendor semantics of one tag of an EC2 `create_tags` call (modelled API
contract): the tag's key is created or overwritten, nothing else changes. -/
def upsertTag (store : List AwsTag) (t : AwsTag) : List AwsTag :=
  if store.any (fun s => s.key == t.key) then
    store.map (fun s => if s.key == t.key then t else s)
  else store ++ [t]

/-- Vendor semantics of an EC2 `create_tags` call on one resource (modelled
API contract): each given tag is created or overwritten in order; tags absent
from the call are untouched. -/
def ec2CreateTags (store : List AwsTag) (tags : List AwsTag) : List AwsTag :=
  tags.foldl upsertTag store

/-- `AWSManager.modify_instance` (aws_manager.py lines 125-142), acting on the
tag store of the addressed instance: with a non-empty tag list it issues one
`create_tags` call; with an empty list it makes no change. -/
def AWSManager.modify_instance (store : List AwsTag) (tags : List AwsTag) : List AwsTag :=
  if tags.isEmpty then store else ec2CreateTags store tags

/-- An error payload of a GCP API call or long-running operation. -/
abbrev GcpError := String

/-- A GCE extended (long-running) operation handle, reduced to its terminal
outcome: `error = some e` when the operation resolved to a failure state. -/
structure ExtendedOperation where
  error : Option GcpError
deriving Repr, DecidableEq

/-- `wait_for_extended_operation` (gcp_manager.py lines 14-16):
`operation.result()` blocks and, on a failed operation, raises the operation's
own terminal error; on success the function returns the description string
followed by " completed successfully.". The description string plays no part
in the failure path. -/
def wait_for_extended_operation (operation : ExtendedOperation)
    (operation_description : String) : Except GcpError String :=
  match operation.error with
  | some e => Except.error e
  | none => Except.ok (operation_description ++ " completed successfully.")

/-- A GCE instance record as returned by the zonal list/get calls: `id` is the
numeric vendor id (`inst.id`, a uint64 the adapter renders with `str`). -/
structure GcpVmRecord where
  id : Nat
  name : String
  machine_type : String
  status : String
deriving Repr, DecidableEq

/-- The `ComputeInstance` built for one GCE record (gcp_manager.py lines
78-86): `instance_id` is `str(inst.id)`, `provider` the literal "gcp",
`region` the zone being listed and `project` the configured project that owns
the scope. -/
def GCPManager.normalizeInstance (project zone : String) (inst : GcpVmRecord) :
    ComputeInstance :=
  { instance_id := toString inst.id
    name := some inst.name
    provider := "gcp"
    region := zone
    instance_type := inst.machine_type
    status := inst.status
    project := some project }

/-- `GCPManager.list_compute_instances` (gcp_manager.py lines 70-87) on the
success path: the cross-product of configured projects and zones, in order,
each scope's records normalized and appended. -/
def GCPManager.list_compute_instances (projects zones : List String)
    (listInstances : String → String → List GcpVmRecord) : List ComputeInstance :=
  projects.flatMap fun project =>
    zones.flatMap fun zone =>
      (listInstances project zone).map (GCPManager.normalizeInstance project zone)

/-- The project-zone pairs the nested loops of gcp_manager.py lines 72-73
visit, in visiting order. -/
def gcpScopes (projects zones : List String) : List (String × String) :=
  projects.flatMap fun project => zones.map fun zone => (project, zone)

/-- `GCPManager.list_compute_instances` with a fallible vendor list call: the
scopes are visited in cross-product order and the first failing scope's error
propagates, aborting the call (no try/except around the loops). -/
def GCPManager.listInstancesFanOut {ε : Type} (projects zones : List String)
    (listInstancesE : String → String → Except ε (List GcpVmRecord)) :
    List (String × String) × Except ε (List ComputeInstance) :=
  fanOutList (fun scope =>
    (listInstancesE scope.1 scope.2).map fun records =>
      records.map (GCPManager.normalizeInstance scope.1 scope.2)) (gcpScopes projects zones)

/-- An accelerator configuration attached to a GCE instance resource. -/
structure AcceleratorConfig where
  accelerator_type : String
  accelerator_count : Nat
deriving Repr, DecidableEq

/-- An access configuration of a GCE network interface (gcp_manager.py lines
121-127). -/
structure AccessConfig where
  type_ : String
  name : String
  network_tier : String
  nat_i_p : Option String
deriving Repr, DecidableEq

/-- A GCE network interface as built by `create_instance` (gcp_manager.py
lines 114-127). -/
structure NetworkInterface where
  network : String
  subnetwork : Option String
  network_i_p : Option String
  access_configs : List AccessConfig
deriving Repr, DecidableEq

/-- The boot-disk initialization parameters (gcp_manager.py line 130). -/
structure AttachedDiskInitializeParams where
  source_image : String
deriving Repr, DecidableEq

/-- The boot disk built by `create_instance` (gcp_manager.py lines 132-137). -/
structure AttachedDisk where
  auto_delete : Bool
  boot : Bool
  type_ : String
  initialize_params : AttachedDiskInitializeParams
deriving Repr, DecidableEq

/-- The scheduling block of a GCE instance resource (gcp_manager.py lines
153-169); unset proto fields are `none`/`false`. -/
structure Scheduling where
  on_host_maintenance : Option String := none
  preemptible : Bool := false
  provisioning_model : Option String := none
  instance_termination_action : Option String := none
deriving Repr, DecidableEq

/-- The GCE instance resource `create_instance` submits with its insert
request (gcp_manager.py lines 140-180). -/
structure GcpInstanceResource where
  name : String
  machine_type : String
  disks : List AttachedDisk
  network_interfaces : List NetworkInterface
  guest_accelerators : List AcceleratorConfig := []
  scheduling : Scheduling
  hostname : Option String := none
  deletion_protection : Bool := false
deriving Repr, DecidableEq

/-- The code-point ranges of the Unicode decimal-digit category Nd. In a
Python `str` pattern compiled without `re.ASCII` — as on gcp_manager.py line
148 — `\d` matches exactly these characters, not only `0-9`. -/
def ndDigitRanges : List (Nat × Nat) :=
  [(48, 57), (1632, 1641), (1776, 1785), (1984, 1993), (2406, 2415),
  (2534, 2543), (2662, 2671), (2790, 2799), (2918, 2927), (3046, 3055),
  (3174, 3183), (3302, 3311), (3430, 3439), (3558, 3567), (3664, 3673),
  (3792, 3801), (3872, 3881), (4160, 4169), (4240, 4249), (6112, 6121),
  (6160, 6169), (6470, 6479), (6608, 6617), (6784, 6793), (6800, 6809),
  (6992, 7001), (7088, 7097), (7232, 7241), (7248, 7257), (42528, 42537),
  (43216, 43225), (43264, 43273), (43472, 43481), (43504, 43513), (43600, 43609),
  (44016, 44025), (65296, 65305), (66720, 66729), (68912, 68921), (69734, 69743),
  (69872, 69881), (69942, 69951), (70096, 70105), (70384, 70393), (70736, 70745),
  (70864, 70873), (71248, 71257), (71360, 71369), (71472, 71481), (71904, 71913),
  (72016, 72025), (72784, 72793), (73040, 73049), (73120, 73129), (92768, 92777),
  (92864, 92873), (93008, 93017), (120782, 120831), (123200, 123209), (123632, 123641),
  (125264, 125273), (130032, 130041)]

/-- Whether a character is a Unicode decimal digit (category Nd): what
Python's `\d` matches in a `str` pattern without `re.ASCII`. -/
def isUnicodeDecimalDigit (c : Char) : Bool :=
  ndDigitRanges.any fun r => decide (r.1 ≤ c.toNat) && decide (c.toNat ≤ r.2)

/-- A character of the machine-type path pattern's repeated class
`[a-z\d\-]` (gcp_manager.py line 148): an ASCII lowercase letter, any
Unicode decimal digit (Python's `\d` on a `str` pattern), or a hyphen. -/
def mtClassChar (c : Char) : Bool :=
  (decide ('a' ≤ c) && decide (c ≤ 'z')) || isUnicodeDecimalDigit c || decide (c = '-')

/-- Strips an exact literal from the front of a char list, returning the
remainder, or `none` when the literal is not a prefix. -/
def stripLit : List Char → List Char → Option (List Char)
  | [], cs => some cs
  | _ :: _, [] => none
  | l :: ls, c :: cs => if c = l then stripLit ls cs else none

/-- Python `re.match(r"^zones/[a-z\d\-]+/machineTypes/[a-z\d\-]+$", s)`
(gcp_manager.py line 148) as a boolean: the anchored pattern accepts
`zones/<z>/machineTypes/<n>` with `<z>`, `<n>` non-empty runs of the class,
and (Python `$` semantics) an optional final newline. The class excludes
`/`, so the greedy runs are the maximal `takeWhile` runs. -/
def machineTypeRegexAccepts (s : String) : Bool :=
  match stripLit "zones/".data s.data with
  | none => false
  | some rest =>
    let z := rest.takeWhile mtClassChar
    let rest2 := rest.dropWhile mtClassChar
    !z.isEmpty &&
      match stripLit "/machineTypes/".data rest2 with
      | none => false
      | some n =>
        let body := n.takeWhile mtClassChar
        let tail := n.dropWhile mtClassChar
        !body.isEmpty && (tail.isEmpty || tail == ['\n'])

/-- The machine-type step of `create_instance` (gcp_manager.py lines
147-151): a string accepted by the pattern is used unchanged, anything else
is qualified with the call's own zone. -/
def qualifyMachineType (zone machine_type : String) : String :=
  if machineTypeRegexAccepts machine_type then machine_type
  else "zones/" ++ zone ++ "/machineTypes/" ++ machine_type

/-- The GCP-side vendor calls an adapter method can issue, across the Service
Usage, Compute and Cloud Storage surfaces. Method embeddings return the list
of calls they issue, in order. -/
inductive GcpCall where
  | suGet (name : String)
  | suEnable (name : String)
  | computeGet (project zone instance_name : String)
  | computeInsert (project zone : String) (resource : GcpInstanceResource)
  | computeSetLabels (project zone instance_name : String) (label_fingerprint : String)
      (labels : List (String × String))
  | operationWait
  | storageListBlobs (bucket : String)
  | storageDeleteBlob (bucket blob : String)
  | storageDeleteBucket (bucket : String)
deriving Repr, DecidableEq

/-- Whether a call is to the Service Usage surface (the activation guard's
get/enable calls). -/
def GcpCall.isServiceUsage : GcpCall → Bool
  | GcpCall.suGet _ => true
  | GcpCall.suEnable _ => true
  | _ => false

/-- Whether a call is a compute get (the only call that fetches an instance
record). -/
def GcpCall.isComputeGet : GcpCall → Bool
  | GcpCall.computeGet _ _ _ => true
  | _ => false

/-- Whether a call is a compute set-labels request. -/
def GcpCall.isComputeSetLabels : GcpCall → Bool
  | GcpCall.computeSetLabels _ _ _ _ _ => true
  | _ => false

/-- Whether a call is a storage object deletion. -/
def GcpCall.isStorageDeleteBlob : GcpCall → Bool
  | GcpCall.storageDeleteBlob _ _ => true
  | _ => false

/-- The service the activation guard checks (gcp_manager.py line 48). -/
def computeServiceName : String := "compute.googleapis.com"

/-- The Service Usage resource name the guard addresses (gcp_manager.py
line 49). -/
def suResourceName (project_id : String) : String :=
  "projects/" ++ project_id ++ "/services/" ++ computeServiceName

/-- `GCPManager._ensure_compute_api_enabled` (gcp_manager.py lines 44-68):
one `services().get` call; on a response whose state is "ENABLED" nothing
more, on any other state an enable call, and on a failing get (service not
found included) the method logs and issues the enable call anyway instead of
re-raising. The environment `getServiceState` returns the response's
`state` field (`none` when the key is absent). -/
def GCPManager.ensure_compute_api_enabled
    (getServiceState : String → Except GcpError (Option String)) (project_id : String) :
    List GcpCall :=
  let name := suResourceName project_id
  match getServiceState name with
  | Except.error _ => [GcpCall.suGet name, GcpCall.suEnable name]
  | Except.ok state =>
    if state = some "ENABLED" then [GcpCall.suGet name]
    else [GcpCall.suGet name, GcpCall.suEnable name]

/-- The Service Usage calls `GCPManager.__init__` issues (gcp_manager.py
lines 37-39): the guard once per configured project, in order, and nowhere
else. -/
def GCPManager.initServiceUsageCalls
    (getServiceState : String → Except GcpError (Option String)) (projects : List String) :
    List GcpCall :=
  projects.flatMap (GCPManager.ensure_compute_api_enabled getServiceState)

/-- The vendor environment `create_instance` talks to: `insert` starts the
long-running insert operation for a resource, `get` fetches the materialized
instance record after a successful wait. -/
structure GcpCreateEnv where
  insert : String → String → GcpInstanceResource → ExtendedOperation
  get : String → String → String → GcpVmRecord

/-- The instance resource `create_instance` builds before inserting
(gcp_manager.py lines 113-180), field for field: one network interface with
an access configuration only under `external_access`, one auto-delete
persistent boot disk from `source_image`, the machine type resolved by the
pattern test, scheduling flags for accelerators/preemptible/spot, optional
hostname and deletion protection. -/
def GCPManager.buildInstanceResource (zone instance_name : String)
    (machine_type source_image network_link : String)
    (subnetwork_link internal_ip : Option String) (external_access : Bool)
    (external_ipv4 : Option String) (accelerators : List AcceleratorConfig)
    (preemptible spot : Bool) (instance_termination_action : String)
    (custom_hostname : Option String) (delete_protection : Bool) : GcpInstanceResource :=
  let network_interface : NetworkInterface :=
    { network := network_link
      subnetwork := subnetwork_link
      network_i_p := internal_ip
      access_configs :=
        if external_access then
          [{ type_ := "ONE_TO_ONE_NAT", name := "External NAT",
             network_tier := "PREMIUM", nat_i_p := external_ipv4 }]
        else [] }
  let disk : AttachedDisk :=
    { auto_delete := true, boot := true, type_ := "PERSISTENT",
      initialize_params := { source_image := source_image } }
  let scheduling : Scheduling :=
    { on_host_maintenance := if accelerators.isEmpty then none else some "TERMINATE"
      preemptible := preemptible
      provisioning_model := if spot then some "SPOT" else none
      instance_termination_action := if spot then some instance_termination_action else none }
  { name := instance_name
    machine_type := qualifyMachineType zone machine_type
    disks := [disk]
    network_interfaces := [network_interface]
    guest_accelerators := accelerators
    scheduling := scheduling
    hostname := custom_hostname
    deletion_protection := delete_protection }

/-- `GCPManager.create_instance` (gcp_manager.py lines 89-186): builds the
resource, issues the insert, blocks on the operation via
`wait_for_extended_operation(operation, "instance creation")`, and only after
a successful wait fetches and returns the instance record; a failed wait
raises before any fetch, so no instance value is produced. -/
def GCPManager.create_instance (env : GcpCreateEnv) (project zone instance_name : String)
    (machine_type : String := "n1-standard-1")
    (source_image : String := "projects/debian-cloud/global/images/family/debian-11")
    (network_link : String := "global/networks/default")
    (subnetwork_link : Option String := none) (internal_ip : Option String := none)
    (external_access : Bool := false) (external_ipv4 : Option String := none)
    (accelerators : List AcceleratorConfig := []) (preemptible : Bool := false)
    (spot : Bool := false) (instance_termination_action : String := "STOP")
    (custom_hostname : Option String := none) (delete_protection : Bool := false) :
    List GcpCall × Except GcpError GcpVmRecord :=
  let resource := GCPManager.buildInstanceResource zone instance_name machine_type
    source_image network_link subnetwork_link internal_ip external_access external_ipv4
    accelerators preemptible spot instance_termination_action custom_hostname
    delete_protection
  let operation := env.insert project zone resource
  match wait_for_extended_operation operation "instance creation" with
  | Except.error e =>
    ([GcpCall.computeInsert project zone resource, GcpCall.operationWait], Except.error e)
  | Except.ok _ =>
    ([GcpCall.computeInsert project zone resource, GcpCall.operationWait,
      GcpCall.computeGet project zone instance_name],
     Except.ok (env.get project zone instance_name))

/-- The label-relevant state of one GCE instance: its current labels and the
optimistic-concurrency label fingerprint. -/
structure GcpVmLabelState where
  labels : List (String × String)
  label_fingerprint : String
deriving Repr, DecidableEq

/-- Vendor semantics of a GCE `setLabels` call (modelled API contract): the
request's label map replaces the instance's label set wholesale. -/
def applySetLabels (inst : GcpVmLabelState) (labels : List (String × String)) :
    GcpVmLabelState :=
  { inst with labels := labels }

/-- `GCPManager.set_instance_labels` (gcp_manager.py lines 199-215): one get
to read the current fingerprint, one set-labels request carrying that
fingerprint unchanged together with the given label map, then the blocking
wait. Returns the calls issued, the instance's label state after the vendor
applies the request, and the wait's outcome. -/
def GCPManager.set_instance_labels (inst : GcpVmLabelState) (operation : ExtendedOperation)
    (project zone instance_name : String) (labels : List (String × String)) :
    List GcpCall × GcpVmLabelState × Except GcpError String :=
  let label_fingerprint := inst.label_fingerprint
  ([GcpCall.computeGet project zone instance_name,
    GcpCall.computeSetLabels project zone instance_name label_fingerprint labels,
    GcpCall.operationWait],
   applySetLabels inst labels,
   wait_for_extended_operation operation "setting instance labels")

/-- `GCPManager.force_delete_bucket` (gcp_manager.py lines 259-269): list the
bucket's blobs, delete each one in enumeration order, then delete the
bucket. `blobs` is what the vendor's `list_blobs` enumerates. -/
def GCPManager.force_delete_bucket (bucket_name : String) (blobs : List String) :
    List GcpCall :=
  GcpCall.storageListBlobs bucket_name ::
    (blobs.map fun b => GcpCall.storageDeleteBlob bucket_name b) ++
      [GcpCall.storageDeleteBucket bucket_name]

/-- Vendor semantics of one storage call (modelled API contract): the state
is `some blobs` while the bucket exists and `none` once deleted; deleting a
non-empty bucket is refused, which is why `force_delete_bucket` must empty
it first. -/
def applyStorageCall (state : Option (List String)) : GcpCall → Except GcpError (Option (List String))
  | GcpCall.storageListBlobs _ =>
    match state with
    | some blobs => Except.ok (some blobs)
    | none => Except.error "bucket not found"
  | GcpCall.storageDeleteBlob _ b =>
    match state with
    | some blobs =>
      if b ∈ blobs then Except.ok (some (blobs.erase b)) else Except.error "blob not found"
    | none => Except.error "bucket not found"
  | GcpCall.storageDeleteBucket _ =>
    match state with
    | some [] => Except.ok none
    | some (_ :: _) => Except.error "bucket not empty"
    | none => Except.error "bucket not found"
  | _ => Except.error "not a storage call"

/-- Runs a call list against the storage-server semantics, stopping at the
first refused call. -/
def runStorageCalls (state : Option (List String)) : List GcpCall → Except GcpError (Option (List String))
  | [] => Except.ok state
  | c :: cs =>
    match applyStorageCall state c with
    | Except.error e => Except.error e
    | Except.ok state2 => runStorageCalls state2 cs

theorem upsertTag_mem_of_ne (store : List AwsTag) (u t : AwsTag)
    (hne : u.key ≠ t.key) (hmem : t ∈ store) : t ∈ upsertTag store u := by
  unfold upsertTag
  by_cases h : store.any (fun s => s.key == u.key)
  · rw [if_pos h]
    refine List.mem_map.mpr ⟨t, hmem, ?_⟩
    have hf : (t.key == u.key) = false :=
      beq_eq_false_iff_ne.mpr fun hh => hne (hh ▸ rfl)
    simp [hf]
  · rw [if_neg h]
    exact List.mem_append_left _ hmem

theorem ec2CreateTags_mem_of_absent : ∀ (tags store : List AwsTag) (t : AwsTag),
    t ∈ store → (∀ u, u ∈ tags → u.key ≠ t.key) → t ∈ ec2CreateTags store tags
  | [], _, _, hmem, _ => hmem
  | u :: us, store, t, hmem, habsent => by
    have h1 : t ∈ upsertTag store u :=
      upsertTag_mem_of_ne store u t (habsent u (List.mem_cons_self u us)) hmem
    exact ec2CreateTags_mem_of_absent us (upsertTag store u) t h1
      (fun v hv => habsent v (List.mem_cons_of_mem u hv))

/-- C5: a call to the regional `modify_instance` never deletes a pre-existing
tag: every tag of the instance whose key is absent from the given tag list is
still present, unchanged, after the call (EC2 `create_tags` only creates or
overwrites the keys it is given; the empty-list branch changes nothing). -/
theorem C5_modify_instance_additive (store tags : List AwsTag) (t : AwsTag)
    (hmem : t ∈ store) (habsent : ∀ u, u ∈ tags → u.key ≠ t.key) :
    t ∈ AWSManager.modify_instance store tags := by
  unfold AWSManager.modify_instance
  by_cases h : tags.isEmpty
  · rw [if_pos h]; exact hmem
  · rw [if_neg h]; exact ec2CreateTags_mem_of_absent tags store t hmem habsent

/-- C5 witness: the pre-existing tag owner=alice survives a `modify_instance`
call given only env=prod (the spec's own example). -/
theorem C5_modify_instance_additive_witness :
    ({ key := "owner", value := "alice" } : AwsTag) ∈
      AWSManager.modify_instance
        [{ key := "env", value := "dev" }, { key := "owner", value := "alice" }]
        [{ key := "env", value := "prod" }] :=
  C5_modify_instance_additive
    [{ key := "env", value := "dev" }, { key := "owner", value := "alice" }]
    [{ key := "env", value := "prod" }]
    { key := "owner", value := "alice" } (by decide) (by decide)

/-- C3: `set_instance_labels` first reads the instance (the fingerprint
source), then issues exactly one set-labels request carrying that fingerprint
unchanged together with the given label map, then blocks on the operation;
the vendor applies the map as a full replacement, so every omitted label is
removed — including the spec's example, where prior labels env=dev, team=x
with new map env=prod leave exactly env=prod. -/
theorem C3_set_labels_fingerprint_and_replacement
    (inst : GcpVmLabelState) (operation : ExtendedOperation)
    (project zone instance_name : String) (labels : List (String × String)) :
    (GCPManager.set_instance_labels inst operation project zone instance_name labels).1 =
      [GcpCall.computeGet project zone instance_name,
       GcpCall.computeSetLabels project zone instance_name inst.label_fingerprint labels,
       GcpCall.operationWait] ∧
    ((GCPManager.set_instance_labels inst operation project zone instance_name
        labels).1.countP GcpCall.isComputeSetLabels) = 1 ∧
    (GCPManager.set_instance_labels inst operation project zone instance_name
        labels).2.1.labels = labels ∧
    (∀ k : String,
      ((GCPManager.set_instance_labels inst operation project zone instance_name
          labels).2.1.labels).lookup k = labels.lookup k) ∧
    (GCPManager.set_instance_labels inst operation project zone instance_name
        labels).2.2 = wait_for_extended_operation operation "setting instance labels" ∧
    (GCPManager.set_instance_labels
        { labels := [("env", "dev"), ("team", "x")],
          label_fingerprint := inst.label_fingerprint }
        operation project zone instance_name [("env", "prod")]).2.1.labels =
      [("env", "prod")] ∧
    ((GCPManager.set_instance_labels
        { labels := [("env", "dev"), ("team", "x")],
          label_fingerprint := inst.label_fingerprint }
        operation project zone instance_name [("env", "prod")]).2.1.labels).lookup "team" =
      none :=
  ⟨rfl, rfl, rfl, fun _ => rfl, rfl, rfl, rfl⟩

theorem runStorage_deleteAll (bucket_name : String) :
    ∀ (blobs : List String) (rest : List GcpCall),
      runStorageCalls (some blobs)
        ((blobs.map fun b => GcpCall.storageDeleteBlob bucket_name b) ++ rest) =
        runStorageCalls (some []) rest
  | [], _ => rfl
  | b :: bs, rest => by
    have hm : b ∈ b :: bs := List.mem_cons_self b bs
    simp only [List.map_cons, List.cons_append, runStorageCalls, applyStorageCall,
      if_pos hm, List.erase_cons_head]
    exact runStorage_deleteAll bucket_name bs rest

/-- C9: `force_delete_bucket` on a bucket of N objects issues exactly N
object deletions — one per object, in enumeration order — all before the
single bucket deletion, and running the calls against the storage semantics
(which refuses to delete a non-empty bucket) succeeds and removes the
bucket; on an already-empty bucket it issues zero object deletions and the
bucket deletion alone. -/
theorem C9_force_delete_bucket_drains_then_deletes (bucket_name : String)
    (blobs : List String) :
    ((GCPManager.force_delete_bucket bucket_name blobs).countP
        GcpCall.isStorageDeleteBlob) = blobs.length ∧
    (∀ b : String,
      (GCPManager.force_delete_bucket bucket_name blobs).count
          (GcpCall.storageDeleteBlob bucket_name b) = blobs.count b) ∧
    GCPManager.force_delete_bucket bucket_name blobs =
      GcpCall.storageListBlobs bucket_name ::
        ((blobs.map fun b => GcpCall.storageDeleteBlob bucket_name b) ++
          [GcpCall.storageDeleteBucket bucket_name]) ∧
    runStorageCalls (some blobs) (GCPManager.force_delete_bucket bucket_name blobs) =
      Except.ok none ∧
    GCPManager.force_delete_bucket bucket_name [] =
      [GcpCall.storageListBlobs bucket_name, GcpCall.storageDeleteBucket bucket_name] := by
  refine ⟨?_, ?_, rfl, ?_, rfl⟩
  · simp [GCPManager.force_delete_bucket, List.countP_cons, List.countP_append,
      List.countP_map, GcpCall.isStorageDeleteBlob, List.countP_true, Function.comp]
  · intro b
    have hinj : Function.Injective (fun x : String => GcpCall.storageDeleteBlob bucket_name x) :=
      fun x y h => by injection h
    simp [GCPManager.force_delete_bucket, List.count_cons, List.count_append,
      List.count_map_of_injective blobs _ hinj b, List.count_singleton]
  · show runStorageCalls (some blobs) (GcpCall.storageListBlobs bucket_name :: _) = _
    simp only [runStorageCalls, applyStorageCall, List.append_eq]
    rw [runStorage_deleteAll bucket_name blobs]
    rfl

/-- The insert environment of the C2 witness: every insert operation resolves
to the failure "ZONE_RESOURCE_POOL_EXHAUSTED". -/
def c2FailEnv : GcpCreateEnv :=
  { insert := fun _ _ _ => { error := some "ZONE_RESOURCE_POOL_EXHAUSTED" }
    get := fun _ _ _ => { id := 0, name := "", machine_type := "", status := "" } }

/-- C2 (amended): when the long-running insert operation resolves to a
failure, `create_instance` propagates the operation's own terminal error and
returns no instance value — the call list contains no instance fetch, so no
partial record is ever produced. -/
theorem C2_amended_create_instance_failure (env : GcpCreateEnv)
    (project zone instance_name : String) (e : GcpError)
    (hfail : ∀ resource, (env.insert project zone resource).error = some e) :
    (GCPManager.create_instance env project zone instance_name).2 = Except.error e ∧
    ∀ c, c ∈ (GCPManager.create_instance env project zone instance_name).1 →
      c.isComputeGet = false := by
  constructor
  · simp only [GCPManager.create_instance, wait_for_extended_operation, hfail]
  · intro c hc
    simp only [GCPManager.create_instance, wait_for_extended_operation, hfail] at hc
    rcases List.mem_cons.mp hc with h | h
    · subst h; rfl
    · rcases List.mem_cons.mp h with h2 | h2
      · subst h2; rfl
      · exact absurd h2 (List.not_mem_nil c)

/-- C2 witness: with every insert failing as ZONE_RESOURCE_POOL_EXHAUSTED,
the concrete create call returns that error and fetches nothing. -/
theorem C2_amended_create_instance_failure_witness :
    (GCPManager.create_instance c2FailEnv "proj-a" "us-central1-a" "vm-1").2 =
      Except.error "ZONE_RESOURCE_POOL_EXHAUSTED" ∧
    ∀ c, c ∈ (GCPManager.create_instance c2FailEnv "proj-a" "us-central1-a" "vm-1").1 →
      c.isComputeGet = false :=
  C2_amended_create_instance_failure c2FailEnv "proj-a" "us-central1-a" "vm-1"
    "ZONE_RESOURCE_POOL_EXHAUSTED" (fun _ => rfl)

/-- C2 counterexample to the claim as stated: on the failure path the raised
error is the operation's own payload, unchanged — two waits on the same
failed operation with different description strings produce the identical
error, and that error does not mention "instance creation" — so the raised
error does not describe the wait's description string. -/
theorem C2_counterexample_description_not_in_error :
    wait_for_extended_operation { error := some "QUOTA_EXCEEDED" } "instance creation" =
      Except.error "QUOTA_EXCEEDED" ∧
    wait_for_extended_operation { error := some "QUOTA_EXCEEDED" } "a different description" =
      Except.error "QUOTA_EXCEEDED" ∧
    ("instance creation" : String) ≠ "a different description" ∧
    ("QUOTA_EXCEEDED" : String) ≠ "instance creation" :=
  ⟨rfl, rfl, by decide, by decide⟩

/-- The single record of C1's concrete conjunct: instance "i-0001", no tags. -/
def c1AwsRecord : AwsVmRecord :=
  { instanceId := "i-0001", tags := none, instanceType := "t2.micro", stateName := "running" }

/-- The environment itself: every region returns that one reservation. -/
def c1AwsEnv : String → AwsDescribeResponse :=
  fun _ => { reservations := [{ instances := [c1AwsRecord] }] }

/-- C1: every vendor record of a list call yields a normalized entry of the
adapter's result; the regional entry carries the record's instance id, the
"aws" provider tag, an absent project and the value of the first tag keyed
"Name" (absent tags or no match give `none`, an earlier non-Name tag is
skipped, the first match wins); the zonal entry carries the rendered numeric
record id, the "gcp" provider tag and the owning configured project. The
final conjunct is the spec's example: id "i-0001" with no tags normalizes to
that id with `name = none`. -/
theorem C1_list_normalization :
    (∀ (regions : List String) (describeInstances : String → AwsDescribeResponse)
        (region : String) (reservation : AwsReservation) (inst : AwsVmRecord),
      region ∈ regions → reservation ∈ (describeInstances region).reservations →
      inst ∈ reservation.instances →
      AWSManager.normalizeInstance region inst ∈
        AWSManager.list_compute_instances regions describeInstances) ∧
    (∀ (region : String) (inst : AwsVmRecord),
      (AWSManager.normalizeInstance region inst).instance_id = inst.instanceId ∧
      (AWSManager.normalizeInstance region inst).provider = "aws" ∧
      (AWSManager.normalizeInstance region inst).project = none ∧
      (AWSManager.normalizeInstance region inst).name = awsNameTag inst.tags) ∧
    awsNameTag none = none ∧
    (∀ tags : List AwsTag, (∀ t, t ∈ tags → t.key ≠ "Name") →
      awsNameTag (some tags) = none) ∧
    (∀ (pre post : List AwsTag) (t : AwsTag), (∀ u, u ∈ pre → u.key ≠ "Name") →
      t.key = "Name" → awsNameTag (some (pre ++ t :: post)) = some t.value) ∧
    (∀ (projects zones : List String) (listInstances : String → String → List GcpVmRecord)
        (project zone : String) (inst : GcpVmRecord),
      project ∈ projects → zone ∈ zones → inst ∈ listInstances project zone →
      GCPManager.normalizeInstance project zone inst ∈
        GCPManager.list_compute_instances projects zones listInstances) ∧
    (∀ (project zone : String) (inst : GcpVmRecord),
      (GCPManager.normalizeInstance project zone inst).instance_id = toString inst.id ∧
      (GCPManager.normalizeInstance project zone inst).provider = "gcp" ∧
      (GCPManager.normalizeInstance project zone inst).project = some project) ∧
    AWSManager.list_compute_instances ["us-east-1"] c1AwsEnv =
      [{ instance_id := "i-0001", name := none, provider := "aws", region := "us-east-1",
         instance_type := "t2.micro", status := "running", project := none }] := by
  refine ⟨?_, fun region inst => ⟨rfl, rfl, rfl, rfl⟩, rfl, ?_, ?_, ?_,
    fun project zone inst => ⟨rfl, rfl, rfl⟩, by decide⟩
  · intro regions describeInstances region reservation inst hr hres hi
    unfold AWSManager.list_compute_instances
    exact List.mem_flatMap.mpr ⟨region, hr, List.mem_flatMap.mpr
      ⟨reservation, hres, List.mem_map.mpr ⟨inst, hi, rfl⟩⟩⟩
  · intro tags h
    simp only [awsNameTag]
    rw [List.find?_eq_none.mpr fun t ht => by simpa using h t ht]
    rfl
  · intro pre post t hpre ht
    simp only [awsNameTag]
    rw [List.find?_append, List.find?_eq_none.mpr fun u hu => by simpa using hpre u hu]
    simp [List.find?_cons, ht]
  · intro projects zones listInstances project zone inst hp hz hi
    unfold GCPManager.list_compute_instances
    exact List.mem_flatMap.mpr ⟨project, hp, List.mem_flatMap.mpr
      ⟨zone, hz, List.mem_map.mpr ⟨inst, hi, rfl⟩⟩⟩

theorem fanOutList_abort {σ ε ρ : Type} (fetch : σ → Except ε (List ρ)) :
    ∀ (pre : List σ) (s0 : σ) (post : List σ) (e : ε),
      (∀ s, s ∈ pre → ∃ rs, fetch s = Except.ok rs) →
      fetch s0 = Except.error e →
      fanOutList fetch (pre ++ s0 :: post) = (pre ++ [s0], Except.error e)
  | [], s0, post, e, _, hfail => by
    simp [fanOutList, hfail]
  | s :: ss, s0, post, e, hpre, hfail => by
    obtain ⟨rs, hs⟩ := hpre s (List.mem_cons_self s ss)
    have ih := fanOutList_abort fetch ss s0 post e
      (fun x hx => hpre x (List.mem_cons_of_mem s hx)) hfail
    simp [fanOutList, hs, ih]

/-- The environment of C6's concrete conjunct: the second region's
describe call is denied, the others are empty successes. -/
def c6DescribeE : String → Except String AwsDescribeResponse := fun region =>
  if region = "eu-west-1" then Except.error "AccessDenied in eu-west-1"
  else Except.ok { reservations := [] }

/-- C6: in both adapters' fan-out list calls, the first failing scope aborts
the whole call with that scope's own vendor error — the result carries no
instance from any scope (the successes already gathered are discarded), the
failing scope was queried exactly once (no retry), and no scope after it was
queried at all (the query trace is exactly the successful prefix followed by
the failing scope). The last conjunct runs the regional call on a concrete
environment whose second region is denied. -/
theorem C6_fanout_abort :
    (∀ (ε : Type) (pre : List String) (r0 : String) (post : List String)
        (describeInstancesE : String → Except ε AwsDescribeResponse) (e : ε),
      (∀ r, r ∈ pre → ∃ resp, describeInstancesE r = Except.ok resp) →
      describeInstancesE r0 = Except.error e →
      AWSManager.listInstancesFanOut (pre ++ r0 :: post) describeInstancesE =
        (pre ++ [r0], Except.error e) ∧
      (pre ++ [r0]).count r0 = 1) ∧
    (∀ (ε : Type) (projects zones : List String) (pre : List (String × String))
        (s0 : String × String) (post : List (String × String))
        (listInstancesE : String → String → Except ε (List GcpVmRecord)) (e : ε),
      gcpScopes projects zones = pre ++ s0 :: post →
      (∀ s, s ∈ pre → ∃ records, listInstancesE s.1 s.2 = Except.ok records) →
      listInstancesE s0.1 s0.2 = Except.error e →
      GCPManager.listInstancesFanOut projects zones listInstancesE =
        (pre ++ [s0], Except.error e) ∧
      (pre ++ [s0]).count s0 = 1) ∧
    AWSManager.listInstancesFanOut ["us-east-1", "eu-west-1", "ap-south-1"] c6DescribeE =
      (["us-east-1", "eu-west-1"], Except.error "AccessDenied in eu-west-1") := by
  refine ⟨?_, ?_, rfl⟩
  · intro ε pre r0 post describeInstancesE e hpre hfail
    have hnot : r0 ∉ pre := by
      intro hmem
      obtain ⟨resp, hok⟩ := hpre r0 hmem
      rw [hfail] at hok
      exact Except.noConfusion hok
    constructor
    · unfold AWSManager.listInstancesFanOut
      refine fanOutList_abort _ pre r0 post e ?_ ?_
      · intro s hs
        obtain ⟨resp, hok⟩ := hpre s hs
        exact ⟨_, by rw [hok]; rfl⟩
      · rw [hfail]; rfl
    · rw [List.count_append, List.count_eq_zero.mpr hnot]
      simp
  · intro ε projects zones pre s0 post listInstancesE e hscopes hpre hfail
    have hnot : s0 ∉ pre := by
      intro hmem
      obtain ⟨records, hok⟩ := hpre s0 hmem
      rw [hfail] at hok
      exact Except.noConfusion hok
    constructor
    · unfold GCPManager.listInstancesFanOut
      rw [hscopes]
      refine fanOutList_abort _ pre s0 post e ?_ ?_
      · intro s hs
        obtain ⟨records, hok⟩ := hpre s hs
        exact ⟨_, by rw [hok]; rfl⟩
      · rw [hfail]; rfl
    · rw [List.count_append, List.count_eq_zero.mpr hnot]
      simp

theorem suResourceName_injective : Function.Injective suResourceName := by
  intro p q h
  apply String.ext
  have hd : ("projects/" ++ p ++ "/services/" ++ computeServiceName).data =
      ("projects/" ++ q ++ "/services/" ++ computeServiceName).data :=
    congrArg String.data h
  simp only [String.data_append, List.append_assoc] at hd
  exact List.append_cancel_right (List.append_cancel_left hd)

theorem ensure_count (getServiceState : String → Except GcpError (Option String))
    (q p : String) :
    (GCPManager.ensure_compute_api_enabled getServiceState q).count
        (GcpCall.suGet (suResourceName p)) = if q = p then 1 else 0 := by
  by_cases hqp : q = p
  · subst hqp
    rw [if_pos rfl]
    simp only [GCPManager.ensure_compute_api_enabled]
    rcases h : getServiceState (suResourceName q) with e | st
    · simp [h, List.count_cons]
    · by_cases hst : st = some "ENABLED" <;> simp [h, hst, List.count_cons]
  · rw [if_neg hqp]
    have hne2 : ¬ (GcpCall.suGet (suResourceName q) = GcpCall.suGet (suResourceName p)) := by
      intro hh
      exact hqp (suResourceName_injective (by injection hh))
    simp only [GCPManager.ensure_compute_api_enabled]
    rcases h : getServiceState (suResourceName q) with e | st
    · simp [h, List.count_cons, hne2]
    · by_cases hst : st = some "ENABLED" <;> simp [h, hst, List.count_cons, hne2]

theorem initSU_count (getServiceState : String → Except GcpError (Option String))
    (p : String) : ∀ (projects : List String),
    (GCPManager.initServiceUsageCalls getServiceState projects).count
        (GcpCall.suGet (suResourceName p)) = projects.count p
  | [] => rfl
  | q :: qs => by
    simp only [GCPManager.initServiceUsageCalls, List.flatMap_cons, List.count_append]
    rw [ensure_count getServiceState q p]
    have ih := initSU_count getServiceState p qs
    simp only [GCPManager.initServiceUsageCalls] at ih
    rw [ih, List.count_cons]
    by_cases hqp : q = p <;> simp [hqp, Nat.add_comm]

theorem create_instance_calls (env : GcpCreateEnv) (project zone instance_name : String)
    (machine_type source_image network_link : String)
    (subnetwork_link internal_ip : Option String) (external_access : Bool)
    (external_ipv4 : Option String) (accelerators : List AcceleratorConfig)
    (preemptible spot : Bool) (instance_termination_action : String)
    (custom_hostname : Option String) (delete_protection : Bool) :
    (GCPManager.create_instance env project zone instance_name machine_type source_image
        network_link subnetwork_link internal_ip external_access external_ipv4 accelerators
        preemptible spot instance_termination_action custom_hostname delete_protection).1 =
      [GcpCall.computeInsert project zone (GCPManager.buildInstanceResource zone
          instance_name machine_type source_image network_link subnetwork_link internal_ip
          external_access external_ipv4 accelerators preemptible spot
          instance_termination_action custom_hostname delete_protection),
        GcpCall.operationWait] ∨
    (GCPManager.create_instance env project zone instance_name machine_type source_image
        network_link subnetwork_link internal_ip external_access external_ipv4 accelerators
        preemptible spot instance_termination_action custom_hostname delete_protection).1 =
      [GcpCall.computeInsert project zone (GCPManager.buildInstanceResource zone
          instance_name machine_type source_image network_link subnetwork_link internal_ip
          external_access external_ipv4 accelerators preemptible spot
          instance_termination_action custom_hostname delete_protection),
        GcpCall.operationWait, GcpCall.computeGet project zone instance_name] := by
  rcases h : (env.insert project zone (GCPManager.buildInstanceResource zone instance_name
      machine_type source_image network_link subnetwork_link internal_ip external_access
      external_ipv4 accelerators preemptible spot instance_termination_action
      custom_hostname delete_protection)).error with _ | e
  · right
    simp only [GCPManager.create_instance, wait_for_extended_operation, h]
  · left
    simp only [GCPManager.create_instance, wait_for_extended_operation, h]

/-- C7: at construction the zonal adapter runs the activation guard: the
Service Usage get for a project's compute service appears in the
construction-time call list exactly as often as the project is configured
(exactly once for each project of a duplicate-free configuration); a get
reporting a state other than ENABLED, and equally a get that itself fails
(service not found included), is followed by the enable call rather than
aborting construction, while an ENABLED response issues no enable; and none
of the adapter's later operations (set-labels, create, force-delete-bucket)
issues any Service Usage call. -/
theorem C7_activation_guard
    (getServiceState : String → Except GcpError (Option String)) (projects : List String) :
    (∀ p : String,
      (GCPManager.initServiceUsageCalls getServiceState projects).count
          (GcpCall.suGet (suResourceName p)) = projects.count p) ∧
    (projects.Nodup → ∀ p, p ∈ projects →
      (GCPManager.initServiceUsageCalls getServiceState projects).count
          (GcpCall.suGet (suResourceName p)) = 1) ∧
    (∀ p e, getServiceState (suResourceName p) = Except.error e →
      GCPManager.ensure_compute_api_enabled getServiceState p =
        [GcpCall.suGet (suResourceName p), GcpCall.suEnable (suResourceName p)]) ∧
    (∀ p st, getServiceState (suResourceName p) = Except.ok st → st ≠ some "ENABLED" →
      GCPManager.ensure_compute_api_enabled getServiceState p =
        [GcpCall.suGet (suResourceName p), GcpCall.suEnable (suResourceName p)]) ∧
    (∀ p, getServiceState (suResourceName p) = Except.ok (some "ENABLED") →
      GCPManager.ensure_compute_api_enabled getServiceState p =
        [GcpCall.suGet (suResourceName p)]) ∧
    (∀ (inst : GcpVmLabelState) (operation : ExtendedOperation)
        (project zone instance_name : String) (labels : List (String × String))
        (c : GcpCall),
      c ∈ (GCPManager.set_instance_labels inst operation project zone instance_name
          labels).1 → c.isServiceUsage = false) ∧
    (∀ (env : GcpCreateEnv) (project zone instance_name : String) (c : GcpCall),
      c ∈ (GCPManager.create_instance env project zone instance_name).1 →
      c.isServiceUsage = false) ∧
    (∀ (bucket_name : String) (blobs : List String) (c : GcpCall),
      c ∈ GCPManager.force_delete_bucket bucket_name blobs → c.isServiceUsage = false) := by
  refine ⟨fun p => initSU_count getServiceState p projects, ?_, ?_, ?_, ?_, ?_, ?_, ?_⟩
  · intro hnd p hp
    rw [initSU_count getServiceState p projects]
    exact List.count_eq_one_of_mem hnd hp
  · intro p e h
    simp only [GCPManager.ensure_compute_api_enabled, h]
  · intro p st h hst
    simp only [GCPManager.ensure_compute_api_enabled, h, if_neg hst]
  · intro p h
    simp [GCPManager.ensure_compute_api_enabled, h]
  · intro inst operation project zone instance_name labels c hc
    rcases List.mem_cons.mp hc with h | h
    · subst h; rfl
    · rcases List.mem_cons.mp h with h2 | h2
      · subst h2; rfl
      · rcases List.mem_cons.mp h2 with h3 | h3
        · subst h3; rfl
        · exact absurd h3 (List.not_mem_nil c)
  · intro env project zone instance_name c hc
    rcases create_instance_calls env project zone instance_name "n1-standard-1"
        "projects/debian-cloud/global/images/family/debian-11" "global/networks/default"
        none none false none [] false false "STOP" none false with h | h
    · rw [h] at hc
      rcases List.mem_cons.mp hc with h1 | h1
      · subst h1; rfl
      · rcases List.mem_cons.mp h1 with h2 | h2
        · subst h2; rfl
        · exact absurd h2 (List.not_mem_nil c)
    · rw [h] at hc
      rcases List.mem_cons.mp hc with h1 | h1
      · subst h1; rfl
      · rcases List.mem_cons.mp h1 with h2 | h2
        · subst h2; rfl
        · rcases List.mem_cons.mp h2 with h3 | h3
          · subst h3; rfl
          · exact absurd h3 (List.not_mem_nil c)
  · intro bucket_name blobs c hc
    rcases List.mem_cons.mp hc with h | h
    · subst h; rfl
    · rcases List.mem_append.mp h with h2 | h2
      · obtain ⟨b, _, hb⟩ := List.mem_map.mp h2
        subst hb; rfl
      · rcases List.mem_cons.mp h2 with h3 | h3
        · subst h3; rfl
        · exact absurd h3 (List.not_mem_nil c)

theorem stripLit_append : ∀ (l cs : List Char), stripLit l (l ++ cs) = some cs
  | [], _ => rfl
  | c :: ls, cs => by simp [stripLit, stripLit_append ls cs]

theorem stripLit_eq_some : ∀ (l s rest : List Char), stripLit l s = some rest → s = l ++ rest
  | [], s, rest, h => by
    simp only [stripLit, Option.some.injEq] at h
    simpa using h
  | _ :: _, [], _, h => by simp [stripLit] at h
  | a :: ls, c :: cs, rest, h => by
    simp only [stripLit] at h
    by_cases hc : c = a
    · rw [if_pos hc] at h
      have h2 := stripLit_eq_some ls cs rest h
      simp [hc, h2]
    · rw [if_neg hc] at h
      exact absurd h (by simp)

theorem takeWhile_all_append (p : Char → Bool) (c : Char) (hc : p c = false) :
    ∀ (z rest : List Char), z.all p = true →
      (z ++ c :: rest).takeWhile p = z ∧ (z ++ c :: rest).dropWhile p = c :: rest
  | [], rest, _ => by simp [List.takeWhile_cons, List.dropWhile_cons, hc]
  | a :: as, rest, hall => by
    rw [List.all_cons, Bool.and_eq_true] at hall
    have ih := takeWhile_all_append p c hc as rest hall.2
    simp [List.takeWhile_cons, List.dropWhile_cons, hall.1, ih.1, ih.2]

theorem takeWhile_of_all (p : Char → Bool) : ∀ (l : List Char), l.all p = true →
    l.takeWhile p = l ∧ l.dropWhile p = []
  | [], _ => by simp
  | a :: as, hall => by
    rw [List.all_cons, Bool.and_eq_true] at hall
    have ih := takeWhile_of_all p as hall.2
    simp [List.takeWhile_cons, List.dropWhile_cons, hall.1, ih.1, ih.2]

/-- The anchored machine-type pattern accepts exactly the strings
`zones/<z>/machineTypes/<n>` with `<z>` and `<n>` non-empty runs of the
class (ASCII lowercase letters, Unicode decimal digits, hyphens), optionally
followed by one final newline (Python `$`). -/
theorem machineTypeRegexAccepts_iff (s : String) :
    machineTypeRegexAccepts s = true ↔
      ∃ z n : List Char, z ≠ [] ∧ n ≠ [] ∧ z.all mtClassChar = true ∧
        n.all mtClassChar = true ∧
        (s.data = "zones/".data ++ z ++ "/machineTypes/".data ++ n ∨
         s.data = "zones/".data ++ z ++ "/machineTypes/".data ++ n ++ ['\n']) := by
  constructor
  · intro hacc
    simp only [machineTypeRegexAccepts] at hacc
    rcases h1 : stripLit "zones/".data s.data with _ | rest
    · rw [h1] at hacc
      exact absurd hacc (by simp)
    · rw [h1] at hacc
      rw [Bool.and_eq_true] at hacc
      obtain ⟨hz, hacc⟩ := hacc
      rcases h2 : stripLit "/machineTypes/".data (rest.dropWhile mtClassChar) with _ | n
      · rw [h2] at hacc
        exact absurd hacc (by simp)
      · rw [h2] at hacc
        rw [Bool.and_eq_true] at hacc
        obtain ⟨hb, htail⟩ := hacc
        refine ⟨rest.takeWhile mtClassChar, n.takeWhile mtClassChar, ?_, ?_, ?_, ?_, ?_⟩
        · intro hnil
          rw [hnil] at hz
          exact absurd hz (by simp)
        · intro hnil
          rw [hnil] at hb
          exact absurd hb (by simp)
        · exact List.all_eq_true.mpr fun x hx => List.mem_takeWhile_imp hx
        · exact List.all_eq_true.mpr fun x hx => List.mem_takeWhile_imp hx
        · have hs : s.data = "zones/".data ++ rest := stripLit_eq_some _ _ _ h1
          have hrest : rest = rest.takeWhile mtClassChar ++ rest.dropWhile mtClassChar :=
            (List.takeWhile_append_dropWhile mtClassChar rest).symm
          have hdrop : rest.dropWhile mtClassChar = "/machineTypes/".data ++ n :=
            stripLit_eq_some _ _ _ h2
          have hn : n = n.takeWhile mtClassChar ++ n.dropWhile mtClassChar :=
            (List.takeWhile_append_dropWhile mtClassChar n).symm
          rcases Bool.or_eq_true_iff.mp htail with hemp | hnl
          · left
            have hnt : n.dropWhile mtClassChar = [] := by
              rcases hd : n.dropWhile mtClassChar with _ | ⟨x, xs⟩
              · rfl
              · rw [hd] at hemp
                exact absurd hemp (by simp)
            have hn2 : n = n.takeWhile mtClassChar := by
              conv_lhs => rw [hn]
              rw [hnt, List.append_nil]
            calc s.data = "zones/".data ++ rest := hs
              _ = "zones/".data ++
                  (rest.takeWhile mtClassChar ++ rest.dropWhile mtClassChar) := by
                    rw [List.takeWhile_append_dropWhile]
              _ = "zones/".data ++
                  (rest.takeWhile mtClassChar ++ ("/machineTypes/".data ++ n)) := by
                    rw [hdrop]
              _ = "zones/".data ++ rest.takeWhile mtClassChar ++ "/machineTypes/".data ++
                  n.takeWhile mtClassChar := by
                    conv_lhs => rw [hn2]
                    simp [List.append_assoc]
          · right
            have hnt : n.dropWhile mtClassChar = ['\n'] := eq_of_beq hnl
            have hn2 : n = n.takeWhile mtClassChar ++ ['\n'] := by
              conv_lhs => rw [hn]
              rw [hnt]
            calc s.data = "zones/".data ++ rest := hs
              _ = "zones/".data ++
                  (rest.takeWhile mtClassChar ++ rest.dropWhile mtClassChar) := by
                    rw [List.takeWhile_append_dropWhile]
              _ = "zones/".data ++
                  (rest.takeWhile mtClassChar ++ ("/machineTypes/".data ++ n)) := by
                    rw [hdrop]
              _ = "zones/".data ++ rest.takeWhile mtClassChar ++ "/machineTypes/".data ++
                  n.takeWhile mtClassChar ++ ['\n'] := by
                    conv_lhs => rw [hn2]
                    simp [List.append_assoc]
  · intro hex
    obtain ⟨z, n, hznil, hnnil, hzall, hnall, hd⟩ := hex
    have hslash : mtClassChar '/' = false := by decide
    have hznemp : z.isEmpty = false := by
      rcases z with _ | ⟨a, as⟩
      · exact absurd rfl hznil
      · rfl
    have hnnemp : n.isEmpty = false := by
      rcases n with _ | ⟨a, as⟩
      · exact absurd rfl hnnil
      · rfl
    rcases hd with hd | hd
    · have hform : s.data = "zones/".data ++ (z ++ '/' :: ("machineTypes/".data ++ n)) := by
        rw [hd]
        simp [List.append_assoc]
      have htw := takeWhile_all_append mtClassChar '/' hslash z ("machineTypes/".data ++ n) hzall
      have hbody := takeWhile_of_all mtClassChar n hnall
      simp only [machineTypeRegexAccepts, hform, stripLit_append, htw.1, htw.2]
      have hstrip2 : stripLit "/machineTypes/".data ('/' :: ("machineTypes/".data ++ n)) =
          some n := stripLit_append "/machineTypes/".data n
      simp only [hstrip2, hbody.1, hbody.2, hznemp, hnnemp]
      rfl
    · have hnewline : mtClassChar '\n' = false := by decide
      have hform : s.data =
          "zones/".data ++ (z ++ '/' :: ("machineTypes/".data ++ (n ++ ['\n']))) := by
        rw [hd]
        simp [List.append_assoc]
      have htw := takeWhile_all_append mtClassChar '/' hslash z
        ("machineTypes/".data ++ (n ++ ['\n'])) hzall
      have hbody := takeWhile_all_append mtClassChar '\n' hnewline n [] hnall
      simp only [machineTypeRegexAccepts, hform, stripLit_append, htw.1, htw.2]
      have hstrip2 : stripLit "/machineTypes/".data
          ('/' :: ("machineTypes/".data ++ (n ++ ['\n']))) = some (n ++ ['\n']) :=
        stripLit_append "/machineTypes/".data (n ++ ['\n'])
      simp only [hstrip2]
      have hb1 : (n ++ ['\n']).takeWhile mtClassChar = n := by
        have := htw  -- placeholder to keep structure clear
        simpa using (takeWhile_all_append mtClassChar '\n' hnewline n [] hnall).1
      have hb2 : (n ++ ['\n']).dropWhile mtClassChar = ['\n'] := by
        simpa using (takeWhile_all_append mtClassChar '\n' hnewline n [] hnall).2
      simp [hb1, hb2, hznemp, hnnemp]

/-- C4: the machine-type step of the zonal `create_instance` qualifies its
input against the code's fixed pattern: an accepted input is passed through
unchanged as the built resource's machine type, anything else is qualified
with the call's own zone; the pattern accepts exactly
`zones/<z>/machineTypes/<n>` with non-empty runs of ASCII lowercase letters,
Unicode decimal digits and hyphens (plus Python `$`'s optional final
newline); the spec's examples hold concretely; and a machine type carrying a
non-ASCII decimal digit (here U+0665) is accepted and passed through
unchanged, as the code's `\d` demands. -/
theorem C4_machine_type_qualification :
    (∀ zone machine_type : String, machineTypeRegexAccepts machine_type = true →
      qualifyMachineType zone machine_type = machine_type) ∧
    (∀ zone machine_type : String, machineTypeRegexAccepts machine_type = false →
      qualifyMachineType zone machine_type =
        "zones/" ++ zone ++ "/machineTypes/" ++ machine_type) ∧
    (∀ s : String, machineTypeRegexAccepts s = true ↔
      ∃ z n : List Char, z ≠ [] ∧ n ≠ [] ∧ z.all mtClassChar = true ∧
        n.all mtClassChar = true ∧
        (s.data = "zones/".data ++ z ++ "/machineTypes/".data ++ n ∨
         s.data = "zones/".data ++ z ++ "/machineTypes/".data ++ n ++ ['\n'])) ∧
    (∀ (zone instance_name machine_type source_image network_link : String)
        (subnetwork_link internal_ip : Option String) (external_access : Bool)
        (external_ipv4 : Option String) (accelerators : List AcceleratorConfig)
        (preemptible spot : Bool) (instance_termination_action : String)
        (custom_hostname : Option String) (delete_protection : Bool),
      (GCPManager.buildInstanceResource zone instance_name machine_type source_image
          network_link subnetwork_link internal_ip external_access external_ipv4
          accelerators preemptible spot instance_termination_action custom_hostname
          delete_protection).machine_type = qualifyMachineType zone machine_type) ∧
    qualifyMachineType "us-central1-a" "n1-standard-1" =
      "zones/us-central1-a/machineTypes/n1-standard-1" ∧
    qualifyMachineType "europe-west1-b" "zones/us-central1-a/machineTypes/n1-standard-1" =
      "zones/us-central1-a/machineTypes/n1-standard-1" ∧
    machineTypeRegexAccepts "zones/n1/machineTypes/٥" = true ∧
    qualifyMachineType "europe-west1-b" "zones/n1/machineTypes/٥" =
      "zones/n1/machineTypes/٥" := by
  refine ⟨?_, ?_, machineTypeRegexAccepts_iff, ?_, by decide, by decide, by decide,
    by decide⟩
  · intro zone machine_type h
    unfold qualifyMachineType
    rw [if_pos h]
  · intro zone machine_type h
    unfold qualifyMachineType
    rw [if_neg ?_]
    rw [h]
    exact Bool.false_ne_true
  · intro zone instance_name machine_type source_image network_link subnetwork_link
      internal_ip external_access external_ipv4 accelerators preemptible spot
      instance_termination_action custom_hostname delete_protection
    rfl

/-- C10 counterexample: the empty string consists (vacuously) only of
lowercase letters, digits and hyphens, yet qualifying it and then qualifying
the result again with another zone does not return the once-qualified string
unchanged — `zones/us-central1-a/machineTypes/` has an empty machine-type run
and fails the pattern, so the second qualification wraps it a second time. -/
theorem C10_counterexample_empty_short_name :
    ("" : String).data.all mtClassChar = true ∧
    qualifyMachineType "europe-west1-b" (qualifyMachineType "us-central1-a" "") ≠
      qualifyMachineType "us-central1-a" "" :=
  ⟨rfl, by decide⟩

/-- C10 (amended): for every zone and machine type that are non-empty and
consist only of lowercase letters, digits and hyphens, the qualified output
itself matches the recognition pattern, so a second qualification — with any
zone — returns it unchanged. -/
theorem C10_amended_qualify_idempotent (zone zone2 machine_type : String)
    (hz : zone ≠ "") (hm : machine_type ≠ "")
    (hzall : zone.data.all mtClassChar = true)
    (hmall : machine_type.data.all mtClassChar = true) :
    machineTypeRegexAccepts (qualifyMachineType zone machine_type) = true ∧
    qualifyMachineType zone2 (qualifyMachineType zone machine_type) =
      qualifyMachineType zone machine_type := by
  have hnoacc : machineTypeRegexAccepts machine_type ≠ true := by
    intro hacc
    obtain ⟨z, n, _, _, _, _, hd⟩ := (machineTypeRegexAccepts_iff machine_type).mp hacc
    have hmem : '/' ∈ machine_type.data := by
      have hin : '/' ∈ "zones/".data := by decide
      rcases hd with hd | hd <;> rw [hd] <;> simp [List.mem_append]
    have hcls := List.all_eq_true.mp hmall '/' hmem
    exact absurd hcls (by decide)
  have hq : qualifyMachineType zone machine_type =
      "zones/" ++ zone ++ "/machineTypes/" ++ machine_type := by
    unfold qualifyMachineType
    rw [if_neg hnoacc]
  have hdata : ("zones/" ++ zone ++ "/machineTypes/" ++ machine_type).data =
      "zones/".data ++ zone.data ++ "/machineTypes/".data ++ machine_type.data := by
    simp [String.data_append]
  have hznil : zone.data ≠ [] := by
    intro h0
    exact hz (String.ext h0)
  have hmnil : machine_type.data ≠ [] := by
    intro h0
    exact hm (String.ext h0)
  have hacc : machineTypeRegexAccepts (qualifyMachineType zone machine_type) = true := by
    rw [hq]
    exact (machineTypeRegexAccepts_iff _).mpr
      ⟨zone.data, machine_type.data, hznil, hmnil, hzall, hmall, Or.inl hdata⟩
  refine ⟨hacc, ?_⟩
  show (if machineTypeRegexAccepts (qualifyMachineType zone machine_type) = true then
      qualifyMachineType zone machine_type
    else "zones/" ++ zone2 ++ "/machineTypes/" ++ qualifyMachineType zone machine_type) =
    qualifyMachineType zone machine_type
  rw [if_pos hacc]

/-- C10 witness: the amended idempotence at the spec's concrete inputs. -/
theorem C10_amended_qualify_idempotent_witness :
    machineTypeRegexAccepts (qualifyMachineType "us-central1-a" "n1-standard-1") = true ∧
    qualifyMachineType "europe-west1-b" (qualifyMachineType "us-central1-a" "n1-standard-1") =
      qualifyMachineType "us-central1-a" "n1-standard-1" :=
  C10_amended_qualify_idempotent "us-central1-a" "europe-west1-b" "n1-standard-1"
    (by decide) (by decide) (by decide) (by decide)

/-- The vendor image response of C8's concrete conjunct: timestamps arrive
in the order T1, T3, T2 (the spec's example). -/
def c8Images : String → List AwsImage := fun _ =>
  [{ imageId := "ami-1", name := some "amzn2-T1",
     creationDate := "2021-01-01T00:00:00.000Z" },
   { imageId := "ami-3", name := some "amzn2-T3",
     creationDate := "2023-01-01T00:00:00.000Z" },
   { imageId := "ami-2", name := some "amzn2-T2",
     creationDate := "2022-01-01T00:00:00.000Z" }]

/-- C8: `get_amis` returns the response images sorted by creation date
descending and then projected — every pair of entries in order (adjacent
pairs included) has the earlier creation date at least the later one, the
sorted list is a permutation of the vendor response whatever its order, and
whenever the sorted list is non-empty its first element's creation date is at
least that of every response image (the first entry is the newest). On the
concrete response with timestamp order T1, T3, T2 the result is T3, T2, T1. -/
theorem C8_get_amis_sorted_descending (describeImages : String → List AwsImage)
    (region : String) :
    AWSManager.get_amis describeImages region =
      ((describeImages region).insertionSort creationGe).map
        (fun img => { imageId := img.imageId, name := img.name.getD img.imageId }) ∧
    List.Sorted creationGe ((describeImages region).insertionSort creationGe) ∧
    List.Perm ((describeImages region).insertionSort creationGe) (describeImages region) ∧
    (∀ (first : AwsImage) (rest : List AwsImage),
      (describeImages region).insertionSort creationGe = first :: rest →
      ∀ img, img ∈ describeImages region →
        pyStrLe img.creationDate first.creationDate = true) ∧
    AWSManager.get_amis c8Images "us-east-1" =
      [{ imageId := "ami-3", name := "amzn2-T3" },
       { imageId := "ami-2", name := "amzn2-T2" },
       { imageId := "ami-1", name := "amzn2-T1" }] := by
  refine ⟨rfl, List.sorted_insertionSort creationGe _, List.perm_insertionSort creationGe _,
    ?_, by decide⟩
  intro first rest hsort img himg
  have hmem : img ∈ (describeImages region).insertionSort creationGe :=
    (List.mem_insertionSort creationGe).mpr himg
  rw [hsort] at hmem
  have hsorted := List.sorted_insertionSort creationGe (describeImages region)
  rw [hsort] at hsorted
  rcases List.mem_cons.mp hmem with h | h
  · subst h
    exact charListLe_refl _
  · exact List.rel_of_sorted_cons hsorted img h
